import Mathlib

/-
Verification of the vibrator HAL composer (src/vibrator/Vibrator.cpp).

Modelling conventions:
- C++ `float` values (amplitudes, frequencies, scales) are modelled as exact
  rationals (ℚ).  All comparisons in the source are exact (no tolerance), and
  every literal involved (0.0, 1.0, -1.0, 140.0, 160.0) is exactly
  representable, so ℚ is a faithful model of the value-level behaviour.
- C++ `int32_t` is modelled as Int (validation keeps all values far from the
  32-bit boundaries).  The `uint32_t totalDuration` accumulator is modelled as
  a Nat kept below 2^32, with the int→uint32 conversion and the wrapping
  addition made explicit (`intToU32`, `addU32`).
- Enum-typed fields arriving over the AIDL boundary (`Braking`,
  `CompositePrimitive`) are modelled by their underlying integer code, since
  the transport performs no range check and the source compares codes.
- Side effects are modelled as an explicit event trace: a driver sysfs-node
  write, or the spawning of the detached sleep-then-notify task.  Operations
  return the status/result together with the trace of events performed.
-/

namespace Vibrator

/-- Status results of a HAL call: `ndk::ScopedAStatus` outcomes used by the
composer (`EX_ILLEGAL_ARGUMENT`, `EX_UNSUPPORTED_OPERATION`); success is the
`Except.ok` constructor. -/
inductive Status
  | illegalArgument
  | unsupportedOperation
deriving DecidableEq, Repr

-- Limit table (static constants at the top of Vibrator.cpp).
def COMPOSE_DELAY_MAX_MS : Int := 1000
def COMPOSE_SIZE_MAX : Nat := 256
def COMPOSE_PWLE_SIZE_MAX : Nat := 127
def COMPOSE_PWLE_PRIMITIVE_DURATION_MAX_MS : Int := 16383
def PWLE_LEVEL_MIN : ℚ := 0
def PWLE_LEVEL_MAX : ℚ := 1
def PWLE_FREQUENCY_MIN_HZ : ℚ := 140
def PWLE_FREQUENCY_MAX_HZ : ℚ := 160

-- Driver sysfs node paths.
def HAPTIC_NODE : String := "/sys/bus/i2c/drivers/aw8697_haptic/2-005a/"
def ACTIVATE_NODE : String := HAPTIC_NODE ++ "activate"
def DURATION_NODE : String := HAPTIC_NODE ++ "duration"
def INDEX_NODE : String := HAPTIC_NODE ++ "index"

-- Waveform durations (ms).
def WAVEFORM_TICK_EFFECT_MS : Nat := 10
def WAVEFORM_TEXTURE_TICK_EFFECT_MS : Nat := 20
def WAVEFORM_CLICK_EFFECT_MS : Nat := 15
def WAVEFORM_HEAVY_CLICK_EFFECT_MS : Nat := 30
def WAVEFORM_DOUBLE_CLICK_EFFECT_MS : Nat := 60
def WAVEFORM_THUD_EFFECT_MS : Nat := 35
def WAVEFORM_POP_EFFECT_MS : Nat := 15

-- Waveform firmware indices.
def WAVEFORM_TICK_EFFECT_INDEX : Nat := 1
def WAVEFORM_TEXTURE_TICK_EFFECT_INDEX : Nat := 4
def WAVEFORM_CLICK_EFFECT_INDEX : Nat := 2
def WAVEFORM_HEAVY_CLICK_EFFECT_INDEX : Nat := 5
def WAVEFORM_DOUBLE_CLICK_EFFECT_INDEX : Nat := 6
def WAVEFORM_THUD_EFFECT_INDEX : Nat := 7

-- Braking enum underlying codes (aidl Braking: NONE = 0, CLAB = 1).
def BRAKING_NONE : Int := 0
def BRAKING_CLAB : Int := 1

/-- An observable side effect of a composer call: a write to a driver sysfs
node, the scheduling of the detached sleep-then-notify completion timer, or
the spawning of the detached primitive-composition playback task. -/
inductive Event
  | writeNode (node : String) (value : Int)
  | scheduleTimer (durationMs : Nat)
  | spawnPlayback
deriving DecidableEq, Repr

/-- aidl ActivePwle: an active PWLE segment (amplitude/frequency ramp). -/
structure ActivePwle where
  startAmplitude : ℚ
  startFrequency : ℚ
  endAmplitude : ℚ
  endFrequency : ℚ
  duration : Int
deriving DecidableEq, Repr

/-- aidl BrakingPwle: a braking PWLE segment.  The braking type is kept as
the enum's underlying integer code, as the source compares codes
(`braking.braking > Braking::CLAB`). -/
structure BrakingPwle where
  braking : Int
  duration : Int
deriving DecidableEq, Repr

/-- aidl PrimitivePwle: tagged union of the two PWLE segment variants. -/
inductive PrimitivePwle
  | active (a : ActivePwle)
  | braking (b : BrakingPwle)
deriving DecidableEq, Repr

/-- One encoded PWLE segment token: the per-index fields
`T` (duration), `L` (level), `F` (frequency), `C` (chirp), `B` (braking code),
`AR` (attack rate), `V` (vibration level) written by `constructActiveSegment`
and `constructBrakingSegment`. -/
structure SegmentToken where
  idx : Int
  duration : Int
  level : ℚ
  frequency : ℚ
  chirp : Int
  braking : Int
  attackRate : Int
  vLevel : Int
deriving DecidableEq, Repr

/-- `constructActiveSegment` (with `constructActiveDefaults`): token with the
given duration/amplitude/frequency, chirp flag 1, braking 0, AR 0, V 0. -/
def constructActiveSegment (segmentIdx : Int) (duration : Int) (amplitude : ℚ)
    (frequency : ℚ) : SegmentToken :=
  ⟨segmentIdx, duration, amplitude, frequency, 1, 0, 0, 0⟩

/-- `constructBrakingSegment`: token with the given duration, level 0,
frequency 0, chirp flag 0, the given braking code, AR 0, V 0. -/
def constructBrakingSegment (segmentIdx : Int) (duration : Int)
    (brakingType : Int) : SegmentToken :=
  ⟨segmentIdx, duration, 0, 0, 0, brakingType, 0, 0⟩

/-- The encoding cursor of one `composePwle` pass: previous end
amplitude/frequency (sentinel value -1 for each), next segment index, and the running
`uint32_t` total duration. -/
structure PwleCursor where
  prevEndAmplitude : ℚ
  prevEndFrequency : ℚ
  segmentIdx : Int
  totalDuration : Nat
deriving DecidableEq, Repr

/-- C++ conversion of a (possibly negative) `int` to `uint32_t`:
reduction modulo 2^32. -/
def intToU32 (i : Int) : Nat := (i % (4294967296 : Int)).toNat

/-- `totalDuration += d` where `totalDuration : uint32_t` and `d : int`:
convert to uint32 and add with wrap-around modulo 2^32. -/
def addU32 (t : Nat) (i : Int) : Nat := (t + intToU32 i) % 4294967296

/-- Processing of one `PrimitivePwle::active` arm of the `composePwle` loop:
the three validation checks, then a zero-duration setup token exactly when
the segment's start amplitude/frequency pair is not equal to the cursor's
previous end pair, then the real token with the end values; the cursor's
previous-end pair becomes this segment's end pair, and the duration is added
to the running total.  (The source emits the setup token under an `if` and
the real token unconditionally; here the two resulting shapes are the two
final branches.) -/
def processActive (cur : PwleCursor) (a : ActivePwle) :
    Except Status (PwleCursor × List SegmentToken) :=
  if a.duration < 0 ∨ a.duration > COMPOSE_PWLE_PRIMITIVE_DURATION_MAX_MS then
    .error .illegalArgument
  else if a.startAmplitude < PWLE_LEVEL_MIN ∨ a.startAmplitude > PWLE_LEVEL_MAX ∨
      a.endAmplitude < PWLE_LEVEL_MIN ∨ a.endAmplitude > PWLE_LEVEL_MAX then
    .error .illegalArgument
  else if a.startFrequency < PWLE_FREQUENCY_MIN_HZ ∨ a.startFrequency > PWLE_FREQUENCY_MAX_HZ ∨
      a.endFrequency < PWLE_FREQUENCY_MIN_HZ ∨ a.endFrequency > PWLE_FREQUENCY_MAX_HZ then
    .error .illegalArgument
  else if a.startAmplitude = cur.prevEndAmplitude ∧ a.startFrequency = cur.prevEndFrequency then
    .ok (⟨a.endAmplitude, a.endFrequency, cur.segmentIdx + 1,
          addU32 cur.totalDuration a.duration⟩,
      [constructActiveSegment cur.segmentIdx a.duration a.endAmplitude a.endFrequency])
  else
    .ok (⟨a.endAmplitude, a.endFrequency, cur.segmentIdx + 2,
          addU32 cur.totalDuration a.duration⟩,
      [constructActiveSegment cur.segmentIdx 0 a.startAmplitude a.startFrequency,
       constructActiveSegment (cur.segmentIdx + 1) a.duration a.endAmplitude a.endFrequency])

/-- Processing of one `PrimitivePwle::braking` arm of the `composePwle` loop:
braking code and duration upper-bound checks (the source has no lower-bound
check on the braking duration), then always two tokens — a zero-duration one
and one with the declared duration, both with the braking code — and the
cursor's previous-end pair is reset to the sentinel (-1, -1). -/
def processBraking (cur : PwleCursor) (b : BrakingPwle) :
    Except Status (PwleCursor × List SegmentToken) :=
  if b.braking > BRAKING_CLAB then
    .error .illegalArgument
  else if b.duration > COMPOSE_PWLE_PRIMITIVE_DURATION_MAX_MS then
    .error .illegalArgument
  else
    .ok (⟨-1, -1, cur.segmentIdx + 2, addU32 cur.totalDuration b.duration⟩,
      [constructBrakingSegment cur.segmentIdx 0 b.braking,
       constructBrakingSegment (cur.segmentIdx + 1) b.duration b.braking])

/-- Dispatch on the tag of one PWLE segment (the `switch (e.getTag())`). -/
def processSegment (cur : PwleCursor) : PrimitivePwle →
    Except Status (PwleCursor × List SegmentToken)
  | .active a => processActive cur a
  | .braking b => processBraking cur b

/-- The `composePwle` loop over the composition, threading the cursor and
appending each segment's tokens to the builder, stopping at the first
validation failure. -/
def processPwleList (cur : PwleCursor) :
    List PrimitivePwle → Except Status (PwleCursor × List SegmentToken)
  | [] => .ok (cur, [])
  | e :: rest =>
    match processSegment cur e with
    | .error s => .error s
    | .ok (cur1, toks1) =>
      match processPwleList cur1 rest with
      | .error s => .error s
      | .ok (cur2, toks2) => .ok (cur2, toks1 ++ toks2)

/-- The fixed playback header emitted once before the segment tokens. -/
def PWLE_HEADER : String := "S:0,WF:4,RP:0,WT:0"

/-- The successful outcome of `composePwle`: the assembled command (header
plus ordered segment tokens) and the accumulated total duration. -/
structure PwleOutcome where
  header : String
  tokens : List SegmentToken
  totalDuration : Nat
deriving DecidableEq, Repr

/-- `Vibrator::composePwle`: size check (`size() <= 0 || size() > 127`,
where `size()` is unsigned so `<= 0` means `= 0`), then the encoding loop
from the sentinel cursor, then — on success — the spawning of the detached
timer task sleeping for the accumulated total duration.  The returned event
trace records every side effect performed: the source contains no
`write_haptic_node` call, so no `Event.writeNode` is ever emitted. -/
def composePwle (composite : List PrimitivePwle) :
    Except Status PwleOutcome × List Event :=
  if composite.length = 0 ∨ composite.length > COMPOSE_PWLE_SIZE_MAX then
    (.error .illegalArgument, [])
  else
    match processPwleList ⟨-1, -1, 0, 0⟩ composite with
    | .error s => (.error s, [])
    | .ok (c, toks) =>
      (.ok ⟨PWLE_HEADER, toks, c.totalDuration⟩, [.scheduleTimer c.totalDuration])

/-- The declared duration of a PWLE segment (for either variant). -/
def PrimitivePwle.declaredDuration : PrimitivePwle → Int
  | .active a => a.duration
  | .braking b => b.duration

/-- Sum of the declared durations of all segments of a composition. -/
def sumDeclaredDurations (l : List PrimitivePwle) : Int :=
  (l.map PrimitivePwle.declaredDuration).sum

/-- All field ranges checked by `composePwle` for an active segment, stated
as the negations of the three rejection conditions. -/
def ActivePwle.inRange (a : ActivePwle) : Prop :=
  ¬(a.duration < 0 ∨ a.duration > COMPOSE_PWLE_PRIMITIVE_DURATION_MAX_MS) ∧
  ¬(a.startAmplitude < PWLE_LEVEL_MIN ∨ a.startAmplitude > PWLE_LEVEL_MAX ∨
    a.endAmplitude < PWLE_LEVEL_MIN ∨ a.endAmplitude > PWLE_LEVEL_MAX) ∧
  ¬(a.startFrequency < PWLE_FREQUENCY_MIN_HZ ∨ a.startFrequency > PWLE_FREQUENCY_MAX_HZ ∨
    a.endFrequency < PWLE_FREQUENCY_MIN_HZ ∨ a.endFrequency > PWLE_FREQUENCY_MAX_HZ)

instance (a : ActivePwle) : Decidable a.inRange := by
  unfold ActivePwle.inRange
  infer_instance

/-- All field ranges checked by `composePwle`, per segment variant. -/
def PrimitivePwle.fieldsInRange : PrimitivePwle → Prop
  | .active a => a.inRange
  | .braking b => b.braking ≤ BRAKING_CLAB ∧ b.duration ≤ COMPOSE_PWLE_PRIMITIVE_DURATION_MAX_MS

instance (e : PrimitivePwle) : Decidable e.fieldsInRange := by
  cases e with
  | active a => exact inferInstanceAs (Decidable a.inRange)
  | braking b => exact inferInstanceAs (Decidable (_ ∧ _))

-- ---------------------------------------------------------------------------
-- Primitive compositions: Vibrator::compose and its collaborators.
-- ---------------------------------------------------------------------------

-- CompositePrimitive enum underlying codes (aidl CompositePrimitive).
def PRIMITIVE_NOOP : Int := 0
def PRIMITIVE_CLICK : Int := 1
def PRIMITIVE_THUD : Int := 2
def PRIMITIVE_SPIN : Int := 3
def PRIMITIVE_QUICK_RISE : Int := 4
def PRIMITIVE_SLOW_RISE : Int := 5
def PRIMITIVE_QUICK_FALL : Int := 6
def PRIMITIVE_LIGHT_TICK : Int := 7
def PRIMITIVE_LOW_TICK : Int := 8

/-- `Vibrator::getSupportedPrimitives`: the supported-primitive set, as the
list of underlying codes.  The primitive field is modelled as its underlying
integer code since the AIDL transport performs no enum range check. -/
def getSupportedPrimitives : List Int :=
  [PRIMITIVE_NOOP, PRIMITIVE_CLICK, PRIMITIVE_THUD, PRIMITIVE_SPIN,
   PRIMITIVE_QUICK_RISE, PRIMITIVE_SLOW_RISE, PRIMITIVE_QUICK_FALL,
   PRIMITIVE_LIGHT_TICK, PRIMITIVE_LOW_TICK]

/-- aidl CompositeEffect: one entry of a primitive composition. -/
structure CompositeEffect where
  delayMs : Int
  primitive : Int
  scale : ℚ
deriving DecidableEq, Repr

/-- The per-entry validation loop of `Vibrator::compose`: first violation in
iteration order wins (delay check, then scale check, then supported-primitive
check). -/
def composeLoop : List CompositeEffect → Except Status Unit
  | [] => .ok ()
  | e :: rest =>
    if e.delayMs > COMPOSE_DELAY_MAX_MS then .error .illegalArgument
    else if e.scale < 0 ∨ e.scale > 1 then .error .illegalArgument
    else if e.primitive ∉ getSupportedPrimitives then .error .unsupportedOperation
    else composeLoop rest

/-- `Vibrator::compose`: size check, per-entry validation loop, then — on
success only — the spawning of the detached playback task (which sleeps per
entry and invokes the completion handle; it performs no driver-node write).
The event trace records every side effect performed. -/
def compose (composite : List CompositeEffect) : Except Status Unit × List Event :=
  if composite.length > COMPOSE_SIZE_MAX then
    (.error .illegalArgument, [])
  else
    match composeLoop composite with
    | .error s => (.error s, [])
    | .ok _ => (.ok (), [.spawnPlayback])

/-- The per-entry range conditions of `compose` (delay and scale). -/
def CompositeEffect.entryOk (e : CompositeEffect) : Prop :=
  e.delayMs ≤ COMPOSE_DELAY_MAX_MS ∧ 0 ≤ e.scale ∧ e.scale ≤ 1

instance (e : CompositeEffect) : Decidable e.entryOk := by
  unfold CompositeEffect.entryOk
  infer_instance

-- ---------------------------------------------------------------------------
-- Named effects: Vibrator::perform (callback-free path; the optional
-- completion thread is the Execution Scheduler collaborator and irrelevant
-- to the index/duration mapping).
-- ---------------------------------------------------------------------------

/-- aidl Effect: the full effect enum as seen by `perform`. -/
inductive Effect
  | CLICK | DOUBLE_CLICK | TICK | THUD | POP | HEAVY_CLICK
  | RINGTONE_1 | RINGTONE_2 | RINGTONE_3 | RINGTONE_4 | RINGTONE_5
  | RINGTONE_6 | RINGTONE_7 | RINGTONE_8 | RINGTONE_9 | RINGTONE_10
  | RINGTONE_11 | RINGTONE_12 | RINGTONE_13 | RINGTONE_14 | RINGTONE_15
  | TEXTURE_TICK
deriving DecidableEq, Repr

/-- `Vibrator::getSupportedEffects`: the supported-effect set. -/
def getSupportedEffects : List Effect :=
  [.TICK, .TEXTURE_TICK, .CLICK, .HEAVY_CLICK, .DOUBLE_CLICK, .THUD, .POP]

/-- `Vibrator::on` without a callback: writes the duration node then the
activate node. -/
def onWrites (timeoutMs : Int) : List Event :=
  [.writeNode DURATION_NODE timeoutMs, .writeNode ACTIVATE_NODE 1]

/-- The tail of a successful `perform` arm: write the effect index node,
then `on(timeMs, nullptr)`; the call reports `timeMs` back to the caller. -/
def performOk (index : Nat) (timeMs : Nat) : Except Status (List Event × Nat) :=
  .ok ([Event.writeNode INDEX_NODE (index : Int)] ++ onWrites (timeMs : Int), timeMs)

/-- `Vibrator::perform`: the `switch (effect)` selecting the firmware index
and duration; the `default:` arm returns `EX_UNSUPPORTED_OPERATION` before
any node is written. -/
def perform : Effect → Except Status (List Event × Nat)
  | .TICK => performOk WAVEFORM_TICK_EFFECT_INDEX WAVEFORM_TICK_EFFECT_MS
  | .TEXTURE_TICK => performOk WAVEFORM_TEXTURE_TICK_EFFECT_INDEX WAVEFORM_TEXTURE_TICK_EFFECT_MS
  | .CLICK => performOk WAVEFORM_CLICK_EFFECT_INDEX WAVEFORM_CLICK_EFFECT_MS
  | .HEAVY_CLICK => performOk WAVEFORM_HEAVY_CLICK_EFFECT_INDEX WAVEFORM_HEAVY_CLICK_EFFECT_MS
  | .DOUBLE_CLICK => performOk WAVEFORM_DOUBLE_CLICK_EFFECT_INDEX WAVEFORM_DOUBLE_CLICK_EFFECT_MS
  | .THUD => performOk WAVEFORM_THUD_EFFECT_INDEX WAVEFORM_THUD_EFFECT_MS
  | .POP => performOk WAVEFORM_TICK_EFFECT_INDEX WAVEFORM_POP_EFFECT_MS
  | _ => .error .unsupportedOperation

end Vibrator

deriving instance DecidableEq for Except

namespace Vibrator

-- ---------------------------------------------------------------------------
-- Helper lemmas about the PWLE encoder.
-- ---------------------------------------------------------------------------

/-- A valid active segment whose start pair equals the cursor's previous end
pair emits only the real token and advances the index by 1. -/
theorem processActive_cont (cur : PwleCursor) (a : ActivePwle) (h : a.inRange)
    (hc : a.startAmplitude = cur.prevEndAmplitude ∧ a.startFrequency = cur.prevEndFrequency) :
    processActive cur a =
      .ok (⟨a.endAmplitude, a.endFrequency, cur.segmentIdx + 1,
            addU32 cur.totalDuration a.duration⟩,
        [constructActiveSegment cur.segmentIdx a.duration a.endAmplitude a.endFrequency]) := by
  unfold processActive
  rw [if_neg h.1, if_neg h.2.1, if_neg h.2.2, if_pos hc]

/-- A valid active segment whose start pair differs from the cursor's
previous end pair emits a zero-duration setup token and then the real token,
advancing the index by 2. -/
theorem processActive_discont (cur : PwleCursor) (a : ActivePwle) (h : a.inRange)
    (hc : ¬(a.startAmplitude = cur.prevEndAmplitude ∧ a.startFrequency = cur.prevEndFrequency)) :
    processActive cur a =
      .ok (⟨a.endAmplitude, a.endFrequency, cur.segmentIdx + 2,
            addU32 cur.totalDuration a.duration⟩,
        [constructActiveSegment cur.segmentIdx 0 a.startAmplitude a.startFrequency,
         constructActiveSegment (cur.segmentIdx + 1) a.duration a.endAmplitude a.endFrequency]) := by
  unfold processActive
  rw [if_neg h.1, if_neg h.2.1, if_neg h.2.2, if_neg hc]

/-- A braking segment passing its two checks always emits its two tokens and
resets the cursor's previous-end pair to the sentinel. -/
theorem processBraking_ok (cur : PwleCursor) (b : BrakingPwle)
    (hb : b.braking ≤ BRAKING_CLAB)
    (hd : b.duration ≤ COMPOSE_PWLE_PRIMITIVE_DURATION_MAX_MS) :
    processBraking cur b =
      .ok (⟨-1, -1, cur.segmentIdx + 2, addU32 cur.totalDuration b.duration⟩,
        [constructBrakingSegment cur.segmentIdx 0 b.braking,
         constructBrakingSegment (cur.segmentIdx + 1) b.duration b.braking]) := by
  unfold processBraking
  rw [if_neg (not_lt.mpr hb), if_neg (not_lt.mpr hd)]

/-- Unfolding of the encoder loop over a cons cell when both the head
segment and the tail succeed. -/
theorem processPwleList_cons_ok (cur cur1 cur2 : PwleCursor) (e : PrimitivePwle)
    (l : List PrimitivePwle) (t1 t2 : List SegmentToken)
    (h1 : processSegment cur e = .ok (cur1, t1))
    (h2 : processPwleList cur1 l = .ok (cur2, t2)) :
    processPwleList cur (e :: l) = .ok (cur2, t1 ++ t2) := by
  simp [processPwleList, h1, h2]

/-- An in-range segment is processed successfully from any cursor. -/
theorem processSegment_ok_of_inRange (cur : PwleCursor) (e : PrimitivePwle)
    (h : e.fieldsInRange) :
    ∃ c t, processSegment cur e = .ok (c, t) := by
  cases e with
  | active a =>
    by_cases hc : a.startAmplitude = cur.prevEndAmplitude ∧
        a.startFrequency = cur.prevEndFrequency
    · exact ⟨_, _, processActive_cont cur a h hc⟩
    · exact ⟨_, _, processActive_discont cur a h hc⟩
  | braking b => exact ⟨_, _, processBraking_ok cur b h.1 h.2⟩

/-- A composition of in-range segments is encoded successfully from any
cursor. -/
theorem processPwleList_ok_of_inRange :
    ∀ (l : List PrimitivePwle) (cur : PwleCursor),
      (∀ e ∈ l, e.fieldsInRange) → ∃ c t, processPwleList cur l = .ok (c, t) := by
  intro l
  induction l with
  | nil => exact fun cur _ => ⟨cur, [], rfl⟩
  | cons e rest ih =>
    intro cur hall
    obtain ⟨c1, t1, h1⟩ := processSegment_ok_of_inRange cur e (hall e (by simp))
    obtain ⟨c2, t2, h2⟩ := ih c1 (fun x hx => hall x (by simp [hx]))
    exact ⟨c2, t1 ++ t2, processPwleList_cons_ok cur c1 c2 e rest t1 t2 h1 h2⟩

/-- A successfully processed segment has declared duration at most 16383 and
adds that duration (converted to `uint32_t`) to the running total, modulo
2^32. -/
theorem processSegment_total (cur cur1 : PwleCursor) (e : PrimitivePwle)
    (t1 : List SegmentToken)
    (h : processSegment cur e = .ok (cur1, t1)) :
    e.declaredDuration ≤ 16383 ∧
      cur1.totalDuration =
        (cur.totalDuration + (e.declaredDuration % 4294967296).toNat) % 4294967296 := by
  cases e with
  | active a =>
    simp only [processSegment] at h
    unfold processActive at h
    by_cases h1 : a.duration < 0 ∨ a.duration > COMPOSE_PWLE_PRIMITIVE_DURATION_MAX_MS
    · rw [if_pos h1] at h; cases h
    · rw [if_neg h1] at h
      simp only [COMPOSE_PWLE_PRIMITIVE_DURATION_MAX_MS, not_or, not_lt] at h1
      refine ⟨h1.2, ?_⟩
      by_cases h2 : a.startAmplitude < PWLE_LEVEL_MIN ∨ a.startAmplitude > PWLE_LEVEL_MAX ∨
          a.endAmplitude < PWLE_LEVEL_MIN ∨ a.endAmplitude > PWLE_LEVEL_MAX
      · rw [if_pos h2] at h; cases h
      · rw [if_neg h2] at h
        by_cases h3 : a.startFrequency < PWLE_FREQUENCY_MIN_HZ ∨
            a.startFrequency > PWLE_FREQUENCY_MAX_HZ ∨
            a.endFrequency < PWLE_FREQUENCY_MIN_HZ ∨ a.endFrequency > PWLE_FREQUENCY_MAX_HZ
        · rw [if_pos h3] at h; cases h
        · rw [if_neg h3] at h
          by_cases h4 : a.startAmplitude = cur.prevEndAmplitude ∧
              a.startFrequency = cur.prevEndFrequency
          · rw [if_pos h4] at h
            simp only [Except.ok.injEq, Prod.mk.injEq] at h
            rw [← h.1]
            simp [addU32, intToU32, PrimitivePwle.declaredDuration]
          · rw [if_neg h4] at h
            simp only [Except.ok.injEq, Prod.mk.injEq] at h
            rw [← h.1]
            simp [addU32, intToU32, PrimitivePwle.declaredDuration]
  | braking b =>
    simp only [processSegment] at h
    unfold processBraking at h
    by_cases h1 : b.braking > BRAKING_CLAB
    · rw [if_pos h1] at h; cases h
    · rw [if_neg h1] at h
      by_cases h2 : b.duration > COMPOSE_PWLE_PRIMITIVE_DURATION_MAX_MS
      · rw [if_pos h2] at h; cases h
      · rw [if_neg h2] at h
        simp only [COMPOSE_PWLE_PRIMITIVE_DURATION_MAX_MS, not_lt] at h2
        refine ⟨h2, ?_⟩
        simp only [Except.ok.injEq, Prod.mk.injEq] at h
        rw [← h.1]
        simp [addU32, intToU32, PrimitivePwle.declaredDuration]

/-- Duration accounting for the whole encoder loop: if every declared
duration is non-negative and the whole sum cannot reach 2^32, the final
total is the starting total plus the exact sum of declared durations. -/
theorem processPwleList_total :
    ∀ (l : List PrimitivePwle) (cur c : PwleCursor) (toks : List SegmentToken),
      (∀ e ∈ l, 0 ≤ e.declaredDuration) →
      cur.totalDuration + 16383 * l.length < 4294967296 →
      processPwleList cur l = .ok (c, toks) →
      (c.totalDuration : Int) = (cur.totalDuration : Int) + sumDeclaredDurations l := by
  intro l
  induction l with
  | nil =>
    intro cur c toks _ _ h
    simp only [processPwleList, Except.ok.injEq, Prod.mk.injEq] at h
    rw [← h.1]
    simp [sumDeclaredDurations]
  | cons e rest ih =>
    intro cur c toks hnn hbound h
    cases hseg : processSegment cur e with
    | error s => simp [processPwleList, hseg] at h
    | ok p =>
      obtain ⟨cur1, t1⟩ := p
      cases hrest : processPwleList cur1 rest with
      | error s => simp [processPwleList, hseg, hrest] at h
      | ok q =>
        obtain ⟨c2, t2⟩ := q
        rw [processPwleList_cons_ok cur cur1 c2 e rest t1 t2 hseg hrest] at h
        simp only [Except.ok.injEq, Prod.mk.injEq] at h
        obtain ⟨hle, htot⟩ := processSegment_total cur cur1 e t1 hseg
        have hd0 : 0 ≤ e.declaredDuration := hnn e (by simp)
        have hlen : (e :: rest).length = rest.length + 1 := by simp
        have h1 : cur1.totalDuration = cur.totalDuration + e.declaredDuration.toNat := by
          omega
        have hbound1 : cur1.totalDuration + 16383 * rest.length < 4294967296 := by
          omega
        have hrec := ih cur1 c2 t2 (fun x hx => hnn x (by simp [hx])) hbound1 hrest
        rw [← h.1, hrec, h1]
        simp only [sumDeclaredDurations, List.map_cons, List.sum_cons]
        push_cast
        omega

-- ---------------------------------------------------------------------------
-- Claim theorems.
-- ---------------------------------------------------------------------------

/-- C1: In `composePwle`, for every active segment of a validated
composition, a zero-duration setup token carrying the segment's start
amplitude/frequency is emitted before the segment's real token if and only
if the start pair differs, by exact equality with no tolerance, from the
encoding cursor's previous end pair; across a consecutive pair of active
segments whose first member is continuous with the cursor, the segment index
advances by exactly 2 when the second segment's start pair equals the
first's end pair, and by 3 when it differs. -/
theorem pwle_setup_token_iff_discontinuity (cur : PwleCursor) (A B : ActivePwle)
    (hA : A.inRange) (hB : B.inRange) :
    (¬(B.startAmplitude = cur.prevEndAmplitude ∧ B.startFrequency = cur.prevEndFrequency) →
      processActive cur B =
        .ok (⟨B.endAmplitude, B.endFrequency, cur.segmentIdx + 2,
              addU32 cur.totalDuration B.duration⟩,
          [constructActiveSegment cur.segmentIdx 0 B.startAmplitude B.startFrequency,
           constructActiveSegment (cur.segmentIdx + 1) B.duration B.endAmplitude
             B.endFrequency])) ∧
    ((B.startAmplitude = cur.prevEndAmplitude ∧ B.startFrequency = cur.prevEndFrequency) →
      processActive cur B =
        .ok (⟨B.endAmplitude, B.endFrequency, cur.segmentIdx + 1,
              addU32 cur.totalDuration B.duration⟩,
          [constructActiveSegment cur.segmentIdx B.duration B.endAmplitude B.endFrequency])) ∧
    (A.startAmplitude = cur.prevEndAmplitude ∧ A.startFrequency = cur.prevEndFrequency →
      ∃ c toks, processPwleList cur [.active A, .active B] = .ok (c, toks) ∧
        c.segmentIdx = cur.segmentIdx +
          (if B.startAmplitude = A.endAmplitude ∧ B.startFrequency = A.endFrequency
           then 2 else 3)) := by
  refine ⟨fun hc => processActive_discont cur B hB hc,
          fun hc => processActive_cont cur B hB hc, fun hcA => ?_⟩
  have hA1 : processSegment cur (.active A) =
      .ok (⟨A.endAmplitude, A.endFrequency, cur.segmentIdx + 1,
            addU32 cur.totalDuration A.duration⟩,
        [constructActiveSegment cur.segmentIdx A.duration A.endAmplitude A.endFrequency]) :=
    processActive_cont cur A hA hcA
  by_cases hB1 : B.startAmplitude = A.endAmplitude ∧ B.startFrequency = A.endFrequency
  · have hB2 : processSegment
        (⟨A.endAmplitude, A.endFrequency, cur.segmentIdx + 1,
          addU32 cur.totalDuration A.duration⟩ : PwleCursor) (.active B) =
        .ok (⟨B.endAmplitude, B.endFrequency, cur.segmentIdx + 1 + 1,
              addU32 (addU32 cur.totalDuration A.duration) B.duration⟩,
          [constructActiveSegment (cur.segmentIdx + 1) B.duration B.endAmplitude
             B.endFrequency]) :=
      processActive_cont _ B hB hB1
    refine ⟨_, _, processPwleList_cons_ok _ _ _ _ _ _ _ hA1
      (processPwleList_cons_ok _ _ _ _ _ _ _ hB2 rfl), ?_⟩
    rw [if_pos hB1]
    dsimp
    omega
  · have hB2 : processSegment
        (⟨A.endAmplitude, A.endFrequency, cur.segmentIdx + 1,
          addU32 cur.totalDuration A.duration⟩ : PwleCursor) (.active B) =
        .ok (⟨B.endAmplitude, B.endFrequency, cur.segmentIdx + 1 + 2,
              addU32 (addU32 cur.totalDuration A.duration) B.duration⟩,
          [constructActiveSegment (cur.segmentIdx + 1) 0 B.startAmplitude B.startFrequency,
           constructActiveSegment (cur.segmentIdx + 1 + 1) B.duration B.endAmplitude
             B.endFrequency]) :=
      processActive_discont _ B hB hB1
    refine ⟨_, _, processPwleList_cons_ok _ _ _ _ _ _ _ hA1
      (processPwleList_cons_ok _ _ _ _ _ _ _ hB2 rfl), ?_⟩
    rw [if_neg hB1]
    dsimp
    omega

/-- C1 witness: two consecutive continuous active segments, starting from a
cursor continuous with the first, advance the segment index by exactly 2. -/
theorem pwle_setup_token_iff_discontinuity_witness :
    ∃ c toks,
      processPwleList ⟨0, 150, 0, 0⟩
        [.active ⟨0, 150, 1, 150, 10⟩, .active ⟨1, 150, 1, 150, 20⟩] = .ok (c, toks) ∧
      c.segmentIdx = 0 + (if (1 : ℚ) = 1 ∧ (150 : ℚ) = 150 then 2 else 3) :=
  (pwle_setup_token_iff_discontinuity ⟨0, 150, 0, 0⟩ ⟨0, 150, 1, 150, 10⟩
    ⟨1, 150, 1, 150, 20⟩ (by decide) (by decide)).2.2 (by decide)

/-- C2: In `composePwle`, every braking segment passing validation emits
exactly two tokens — a zero-duration setup token followed by a real token
with the declared duration, both carrying the braking type — regardless of
continuity, and resets the cursor's previous-end pair to the sentinel
(-1, -1); consequently a valid active segment immediately following a
braking segment always gets a setup token (its start amplitude is
non-negative, hence never equal to the sentinel). -/
theorem pwle_braking_two_tokens_resets (cur : PwleCursor) (b : BrakingPwle)
    (hb : b.braking ≤ BRAKING_CLAB)
    (hd : b.duration ≤ COMPOSE_PWLE_PRIMITIVE_DURATION_MAX_MS) :
    processBraking cur b =
      .ok (⟨-1, -1, cur.segmentIdx + 2, addU32 cur.totalDuration b.duration⟩,
        [constructBrakingSegment cur.segmentIdx 0 b.braking,
         constructBrakingSegment (cur.segmentIdx + 1) b.duration b.braking]) ∧
    ∀ a : ActivePwle, a.inRange →
      processPwleList cur [.braking b, .active a] =
        .ok (⟨a.endAmplitude, a.endFrequency, cur.segmentIdx + 4,
              addU32 (addU32 cur.totalDuration b.duration) a.duration⟩,
          [constructBrakingSegment cur.segmentIdx 0 b.braking,
           constructBrakingSegment (cur.segmentIdx + 1) b.duration b.braking,
           constructActiveSegment (cur.segmentIdx + 2) 0 a.startAmplitude a.startFrequency,
           constructActiveSegment (cur.segmentIdx + 3) a.duration a.endAmplitude
             a.endFrequency]) := by
  have hbr := processBraking_ok cur b hb hd
  refine ⟨hbr, fun a ha => ?_⟩
  have hstart : (0 : ℚ) ≤ a.startAmplitude := by
    have h2 := ha.2.1
    simp only [PWLE_LEVEL_MIN, PWLE_LEVEL_MAX, not_or, not_lt] at h2
    exact h2.1
  have hdis : ¬(a.startAmplitude = (-1 : ℚ) ∧ a.startFrequency = (-1 : ℚ)) := by
    intro hc
    rw [hc.1] at hstart
    norm_num at hstart
  have hact : processSegment
      (⟨-1, -1, cur.segmentIdx + 2, addU32 cur.totalDuration b.duration⟩ : PwleCursor)
      (.active a) =
      .ok (⟨a.endAmplitude, a.endFrequency, cur.segmentIdx + 2 + 2,
            addU32 (addU32 cur.totalDuration b.duration) a.duration⟩,
        [constructActiveSegment (cur.segmentIdx + 2) 0 a.startAmplitude a.startFrequency,
         constructActiveSegment (cur.segmentIdx + 2 + 1) a.duration a.endAmplitude
           a.endFrequency]) :=
    processActive_discont _ a ha hdis
  have hbr2 : processSegment cur (.braking b) =
      .ok (⟨-1, -1, cur.segmentIdx + 2, addU32 cur.totalDuration b.duration⟩,
        [constructBrakingSegment cur.segmentIdx 0 b.braking,
         constructBrakingSegment (cur.segmentIdx + 1) b.duration b.braking]) := hbr
  have hnil : processPwleList
      (⟨a.endAmplitude, a.endFrequency, cur.segmentIdx + 2 + 2,
        addU32 (addU32 cur.totalDuration b.duration) a.duration⟩ : PwleCursor)
      ([] : List PrimitivePwle) =
      .ok (⟨a.endAmplitude, a.endFrequency, cur.segmentIdx + 2 + 2,
            addU32 (addU32 cur.totalDuration b.duration) a.duration⟩,
        ([] : List SegmentToken)) := rfl
  have hlist := processPwleList_cons_ok _ _ _ _ _ _ _ hbr2
    (processPwleList_cons_ok _ _ _ _ _ _ _ hact hnil)
  rw [hlist]
  have h4 : cur.segmentIdx + 2 + 2 = cur.segmentIdx + 4 := by omega
  have h3 : cur.segmentIdx + 2 + 1 = cur.segmentIdx + 3 := by omega
  rw [h4, h3]
  simp

/-- C2 witness: a CLAB braking segment of duration 50 from the initial
cursor emits its two tokens and resets the previous-end pair. -/
theorem pwle_braking_two_tokens_resets_witness :
    processBraking ⟨-1, -1, 0, 0⟩ ⟨1, 50⟩ =
      .ok (⟨-1, -1, 0 + 2, addU32 0 50⟩,
        [constructBrakingSegment 0 0 1, constructBrakingSegment (0 + 1) 50 1]) :=
  (pwle_braking_two_tokens_resets ⟨-1, -1, 0, 0⟩ ⟨1, 50⟩ (by decide) (by decide)).1

/-- C4: encoding [Active(duration 100, amplitude 0 to 0.5, frequency 150 to
150), Braking(duration 50, type CLAB)] yields total duration 150 and exactly
4 segment tokens with indices 0 through 3 (setup plus real for the active
segment, then the braking pair). -/
theorem pwle_example_four_indices :
    composePwle [.active ⟨0, 150, mkRat 1 2, 150, 100⟩, .braking ⟨1, 50⟩] =
      (.ok ⟨PWLE_HEADER,
        [⟨0, 0, 0, 150, 1, 0, 0, 0⟩, ⟨1, 100, mkRat 1 2, 150, 1, 0, 0, 0⟩,
         ⟨2, 0, 0, 0, 0, 1, 0, 0⟩, ⟨3, 50, 0, 0, 0, 1, 0, 0⟩], 150⟩,
       [.scheduleTimer 150]) ∧
    List.map SegmentToken.idx
      [⟨0, 0, 0, 150, 1, 0, 0, 0⟩, (⟨1, 100, mkRat 1 2, 150, 1, 0, 0, 0⟩ : SegmentToken),
       ⟨2, 0, 0, 0, 0, 1, 0, 0⟩, ⟨3, 50, 0, 0, 0, 1, 0, 0⟩] = [0, 1, 2, 3] :=
  ⟨by decide, by decide⟩

/-- C5: `composePwle` rejects the empty composition and any composition
longer than 127 with IllegalArgument, and accepts every composition of
length 1 to 127 all of whose segments have their fields in the checked
ranges. -/
theorem pwle_size_and_range_validation (l : List PrimitivePwle) :
    (l.length = 0 → (composePwle l).1 = .error .illegalArgument) ∧
    (l.length > COMPOSE_PWLE_SIZE_MAX → (composePwle l).1 = .error .illegalArgument) ∧
    (1 ≤ l.length → l.length ≤ COMPOSE_PWLE_SIZE_MAX → (∀ e ∈ l, e.fieldsInRange) →
      ∃ out, (composePwle l).1 = .ok out) := by
  refine ⟨fun h => ?_, fun h => ?_, fun h1 h2 hall => ?_⟩
  · unfold composePwle
    rw [if_pos (Or.inl h)]
  · unfold composePwle
    rw [if_pos (Or.inr h)]
  · obtain ⟨c, t, hp⟩ := processPwleList_ok_of_inRange l ⟨-1, -1, 0, 0⟩ hall
    refine ⟨⟨PWLE_HEADER, t, c.totalDuration⟩, ?_⟩
    unfold composePwle
    rw [if_neg (by omega)]
    simp [hp]

/-- C5 witness: a singleton in-range active composition is accepted. -/
theorem pwle_size_and_range_validation_witness :
    ∃ out, (composePwle [.active ⟨0, 150, 1, 150, 100⟩]).1 = .ok out :=
  (pwle_size_and_range_validation [.active ⟨0, 150, 1, 150, 100⟩]).2.2
    (by decide) (by decide) (by decide)

/-- C3 counterexample: the braking-duration validation has no lower bound,
so the composition [Braking(NONE, duration -1)] is accepted; the total
duration handed to the scheduler is 4294967295 (the declared duration -1
converted to `uint32_t`), not the exact sum -1 of the declared durations. -/
theorem pwle_total_counterexample :
    (composePwle [.braking ⟨0, -1⟩]).1 =
      .ok ⟨PWLE_HEADER, [⟨0, 0, 0, 0, 0, 0, 0, 0⟩, ⟨1, -1, 0, 0, 0, 0, 0, 0⟩],
           4294967295⟩ ∧
    sumDeclaredDurations [.braking ⟨0, -1⟩] = -1 ∧
    ((4294967295 : Int) ≠ -1) :=
  ⟨by decide, by decide, by decide⟩

/-- C3 (amended): for every composition accepted by `composePwle` all of
whose declared durations are non-negative, the total duration handed to the
execution scheduler equals the exact sum of all declared durations, active
and braking alike (setup tokens contribute 0); the accumulator is a 32-bit
unsigned counter, so an accepted negative braking duration would instead
wrap modulo 2^32. -/
theorem pwle_total_eq_sum_of_nonneg (l : List PrimitivePwle) (out : PwleOutcome)
    (hnn : ∀ e ∈ l, 0 ≤ e.declaredDuration)
    (h : (composePwle l).1 = .ok out) :
    (out.totalDuration : Int) = sumDeclaredDurations l ∧
    (composePwle l).2 = [.scheduleTimer out.totalDuration] := by
  unfold composePwle at h ⊢
  by_cases hlen : l.length = 0 ∨ l.length > COMPOSE_PWLE_SIZE_MAX
  · rw [if_pos hlen] at h
    cases h
  · rw [if_neg hlen] at h ⊢
    have hlen127 : l.length ≤ 127 := by
      simp only [COMPOSE_PWLE_SIZE_MAX] at hlen
      omega
    cases hp : processPwleList ⟨-1, -1, 0, 0⟩ l with
    | error s => simp [hp] at h
    | ok p =>
      obtain ⟨c, toks⟩ := p
      simp only [hp] at h
      simp only [Except.ok.injEq] at h
      have htot := processPwleList_total l ⟨-1, -1, 0, 0⟩ c toks hnn (by simp; omega) hp
      constructor
      · rw [← h]
        simpa using htot
      · rw [← h]

/-- C3 witness: a singleton active composition of duration 100 has total
duration 100, which is scheduled. -/
theorem pwle_total_eq_sum_of_nonneg_witness :
    ((100 : Nat) : Int) =
      sumDeclaredDurations [.active ⟨0, 150, 1, 150, 100⟩] ∧
    (composePwle [.active ⟨0, 150, 1, 150, 100⟩]).2 = [.scheduleTimer 100] :=
  pwle_total_eq_sum_of_nonneg [.active ⟨0, 150, 1, 150, 100⟩]
    ⟨PWLE_HEADER, [⟨0, 0, 0, 150, 1, 0, 0, 0⟩, ⟨1, 100, 1, 150, 1, 0, 0, 0⟩], 100⟩
    (by decide) (by decide)

-- ---------------------------------------------------------------------------
-- Helper lemmas about the primitive-composition validation loop.
-- ---------------------------------------------------------------------------

/-- The validation loop succeeds when every entry is in range and uses a
supported primitive. -/
theorem composeLoop_ok :
    ∀ l : List CompositeEffect,
      (∀ e ∈ l, e.entryOk ∧ e.primitive ∈ getSupportedPrimitives) →
      composeLoop l = .ok () := by
  intro l
  induction l with
  | nil => exact fun _ => rfl
  | cons e rest ih =>
    intro h
    obtain ⟨⟨hd, hs0, hs1⟩, hp⟩ := h e (by simp)
    unfold composeLoop
    rw [if_neg (not_lt.mpr hd), if_neg (by push_neg; exact ⟨hs0, hs1⟩),
        if_neg (not_not_intro hp)]
    exact ih (fun x hx => h x (by simp [hx]))

/-- The validation loop reports IllegalArgument when all primitives are
supported but some entry violates the delay or scale range. -/
theorem composeLoop_illegal :
    ∀ l : List CompositeEffect,
      (∀ e ∈ l, e.primitive ∈ getSupportedPrimitives) →
      (∃ e ∈ l, ¬e.entryOk) →
      composeLoop l = .error .illegalArgument := by
  intro l
  induction l with
  | nil => intro _ hex; simp at hex
  | cons e rest ih =>
    intro hsup hex
    unfold composeLoop
    by_cases hd : e.delayMs > COMPOSE_DELAY_MAX_MS
    · rw [if_pos hd]
    · rw [if_neg hd]
      by_cases hs : e.scale < 0 ∨ e.scale > 1
      · rw [if_pos hs]
      · rw [if_neg hs, if_neg (not_not_intro (hsup e (by simp)))]
        apply ih (fun x hx => hsup x (by simp [hx]))
        obtain ⟨x, hx, hnx⟩ := hex
        rcases List.mem_cons.mp hx with heq | hx2
        · subst heq
          push_neg at hs
          exact absurd ⟨not_lt.mp hd, hs⟩ hnx
        · exact ⟨x, hx2, hnx⟩

/-- The validation loop reports UnsupportedOperation when all entries are in
range but some entry uses an unsupported primitive. -/
theorem composeLoop_unsupported :
    ∀ l : List CompositeEffect,
      (∀ e ∈ l, e.entryOk) →
      (∃ e ∈ l, e.primitive ∉ getSupportedPrimitives) →
      composeLoop l = .error .unsupportedOperation := by
  intro l
  induction l with
  | nil => intro _ hex; simp at hex
  | cons e rest ih =>
    intro hok hex
    obtain ⟨hd, hs0, hs1⟩ := hok e (by simp)
    unfold composeLoop
    rw [if_neg (not_lt.mpr hd), if_neg (by push_neg; exact ⟨hs0, hs1⟩)]
    by_cases hp : e.primitive ∈ getSupportedPrimitives
    · rw [if_neg (not_not_intro hp)]
      apply ih (fun x hx => hok x (by simp [hx]))
      obtain ⟨x, hx, hnx⟩ := hex
      rcases List.mem_cons.mp hx with heq | hx2
      · subst heq
        exact absurd hp hnx
      · exact ⟨x, hx2, hnx⟩
    · rw [if_pos hp]

/-- C6: `compose` validates a primitive composition: size greater than 256
is rejected with IllegalArgument (size 0 is permitted); an entry with delay
above 1000 ms or scale outside [0, 1] yields IllegalArgument (when no
earlier violation is an unsupported primitive); an entry with an unsupported
primitive yields UnsupportedOperation (when no earlier violation is a
delay/scale violation); otherwise `compose` succeeds, spawning only the
playback task. -/
theorem compose_validation (l : List CompositeEffect) :
    (l.length > COMPOSE_SIZE_MAX → compose l = (.error .illegalArgument, [])) ∧
    (compose [] = (.ok (), [.spawnPlayback])) ∧
    (l.length ≤ COMPOSE_SIZE_MAX →
      (∀ e ∈ l, e.entryOk ∧ e.primitive ∈ getSupportedPrimitives) →
      compose l = (.ok (), [.spawnPlayback])) ∧
    (l.length ≤ COMPOSE_SIZE_MAX →
      (∀ e ∈ l, e.primitive ∈ getSupportedPrimitives) →
      (∃ e ∈ l, ¬e.entryOk) →
      compose l = (.error .illegalArgument, [])) ∧
    (l.length ≤ COMPOSE_SIZE_MAX →
      (∀ e ∈ l, e.entryOk) →
      (∃ e ∈ l, e.primitive ∉ getSupportedPrimitives) →
      compose l = (.error .unsupportedOperation, [])) := by
  refine ⟨fun h => ?_, by decide, fun h hall => ?_, fun h hsup hex => ?_,
    fun h hok hex => ?_⟩
  · unfold compose
    rw [if_pos h]
  · unfold compose
    rw [if_neg (not_lt.mpr h), composeLoop_ok l hall]
  · unfold compose
    rw [if_neg (not_lt.mpr h), composeLoop_illegal l hsup hex]
  · unfold compose
    rw [if_neg (not_lt.mpr h), composeLoop_unsupported l hok hex]

/-- C6 witness: a single supported CLICK entry with delay 10 and scale 1 is
accepted, and a single entry with delay 2000 is rejected. -/
theorem compose_validation_witness :
    compose [⟨10, 1, 1⟩] = (.ok (), [.spawnPlayback]) ∧
    compose [⟨2000, 1, 1⟩] = (.error .illegalArgument, []) :=
  ⟨(compose_validation [⟨10, 1, 1⟩]).2.2.1 (by decide) (by decide),
   (compose_validation [⟨2000, 1, 1⟩]).2.2.2.1 (by decide) (by decide)
     ⟨⟨2000, 1, 1⟩, by decide, by decide⟩⟩

/-- C7: for every request to `compose` or `composePwle` that fails
validation, the error is returned with an empty event trace: no driver-node
write, no completion timer, and no background playback task (hence the
completion handle, which is only ever invoked from such a task, is never
invoked for that request). -/
theorem validation_failure_no_side_effects :
    (∀ (l : List CompositeEffect) (s : Status),
      (compose l).1 = .error s → (compose l).2 = []) ∧
    (∀ (l : List PrimitivePwle) (s : Status),
      (composePwle l).1 = .error s → (composePwle l).2 = []) := by
  constructor
  · intro l s h
    unfold compose at h ⊢
    by_cases hl : l.length > COMPOSE_SIZE_MAX
    · rw [if_pos hl]
    · rw [if_neg hl] at h ⊢
      cases hc : composeLoop l with
      | error s2 => simp [hc]
      | ok u => simp [hc] at h
  · intro l s h
    unfold composePwle at h ⊢
    by_cases hl : l.length = 0 ∨ l.length > COMPOSE_PWLE_SIZE_MAX
    · rw [if_pos hl]
    · rw [if_neg hl] at h ⊢
      cases hc : processPwleList ⟨-1, -1, 0, 0⟩ l with
      | error s2 => simp [hc]
      | ok p => simp [hc] at h

/-- C7 witness: a primitive composition with delay 2000 fails validation and
produces no side effect; an empty PWLE composition likewise. -/
theorem validation_failure_no_side_effects_witness :
    (compose [⟨2000, 1, 1⟩]).2 = [] ∧ (composePwle []).2 = [] :=
  ⟨validation_failure_no_side_effects.1 [⟨2000, 1, 1⟩] .illegalArgument (by decide),
   validation_failure_no_side_effects.2 [] .illegalArgument (by decide)⟩

/-- C8: the braking-duration check in `composePwle` has no lower bound, so
the composition [Braking(CLAB, duration -5)] — which violates the claimed
invariant 0 ≤ duration — is accepted: the encoder emits the two braking
tokens (the real one carrying duration -5) and schedules a timer of
4294967291 ms (the negative duration converted to `uint32_t`). -/
theorem composePwle_accepts_negative_braking_duration :
    composePwle [.braking ⟨1, -5⟩] =
      (.ok ⟨PWLE_HEADER, [⟨0, 0, 0, 0, 0, 1, 0, 0⟩, ⟨1, -5, 0, 0, 0, 1, 0, 0⟩],
            4294967291⟩,
       [.scheduleTimer 4294967291]) := by
  decide

/-- C9: for the valid composition [Active(duration 100, amplitude 0 to 0.5,
frequency 150 to 150)], `composePwle` assembles the full command (header
plus the two tokens) internally, but its event trace contains only the
completion-timer event and no driver-node write: the command string is never
handed to the driver-write collaborator. -/
theorem composePwle_builds_command_but_never_writes :
    composePwle [.active ⟨0, 150, mkRat 1 2, 150, 100⟩] =
      (.ok ⟨PWLE_HEADER,
        [⟨0, 0, 0, 150, 1, 0, 0, 0⟩, ⟨1, 100, mkRat 1 2, 150, 1, 0, 0, 0⟩], 100⟩,
       [.scheduleTimer 100]) ∧
    ((composePwle [.active ⟨0, 150, mkRat 1 2, 150, 100⟩]).2.countP
      (fun ev => match ev with | .writeNode _ _ => true | _ => false)) = 0 := by
  exact ⟨by decide, by decide⟩

/-- C10: `perform` maps POP to the same driver waveform index as TICK
(index 1), not a distinct POP index, while reporting POP's own 15 ms
duration to the caller; every effect outside the supported set yields
UnsupportedOperation with no node written. -/
theorem perform_pop_tick_index :
    perform .POP =
      .ok ([.writeNode INDEX_NODE (WAVEFORM_TICK_EFFECT_INDEX : Int),
            .writeNode DURATION_NODE (WAVEFORM_POP_EFFECT_MS : Int),
            .writeNode ACTIVATE_NODE 1], WAVEFORM_POP_EFFECT_MS) ∧
    WAVEFORM_TICK_EFFECT_INDEX = 1 ∧ WAVEFORM_POP_EFFECT_MS = 15 ∧
    (∀ e : Effect, e ∉ getSupportedEffects →
      perform e = .error .unsupportedOperation) := by
  refine ⟨by decide, by decide, by decide, fun e he => ?_⟩
  cases e <;> first
    | rfl
    | exact absurd (by decide) he

/-- C10 witness: RINGTONE_1 is outside the supported set and is rejected. -/
theorem perform_pop_tick_index_witness :
    perform .RINGTONE_1 = .error .unsupportedOperation :=
  perform_pop_tick_index.2.2.2 .RINGTONE_1 (by decide)

